import Mathlib

/-!
Verification development for the pg_exporter patches repository.

The embedding models, from the source:
  - the per-query cache-and-execute engine (`Collector`, from the query
    instance source file): `cacheExpired`, `execute`, `CollectWithContext`,
    `makeDescMap`;
  - the exporter-level discovery and gauge logic (`exporter.go`):
    `OnDatabaseChange`, `CreateServer`, `RemoveServer`, `IterateServer`,
    `collectServerMetrics`.

Modelling conventions:
  - Go `time.Time` / `time.Duration` values are integers (nanosecond
    timestamps).  A `Query`'s `ttl` field holds the already-converted
    duration `time.Duration(TTL * float64(time.Second))`, and `timeout`
    holds `TimeoutDuration()`; the float-to-duration conversion is
    monotone, so the comparison structure of the source is preserved.
  - Go `float64` statistics and metric values are modelled as `Int`
    (no claim depends on real-number arithmetic).
  - Go maps are association lists with overwrite-on-insert semantics
    (`mapInsert` filters the old key out, matching `m[k] = v` lookup
    behaviour); map iteration order is the list order.
  - The database's behaviour during one execution (the rows returned, or
    the error raised) is an explicit `ExecOutcome` input.
-/

namespace PgExporter

/-! ## Association-list model of Go maps -/

/-- Go map update `m[k] = v`: any previous binding of `k` is replaced. -/
def mapInsert {α : Type} (m : List (String × α)) (k : String) (v : α) :
    List (String × α) :=
  m.filter (fun kv => !(kv.1 == k)) ++ [(k, v)]

/-- Go map lookup `m[k]` (`none` models "key absent"). -/
def mapLookup {α : Type} (m : List (String × α)) (k : String) : Option α :=
  (m.find? (fun kv => kv.1 == k)).map Prod.snd

/-- Go `delete(m, k)`. -/
def mapErase {α : Type} (m : List (String × α)) (k : String) :
    List (String × α) :=
  m.filter (fun kv => !(kv.1 == k))

/-- Number of bindings of key `k` (a well-formed Go map always has 0 or 1). -/
def countKey {α : Type} (m : List (String × α)) (k : String) : Nat :=
  m.countP (fun kv => kv.1 == k)

/-! ## Query / column data model (from the `Query` and `Column` structs as
used by the query-instance source file) -/

/-- Metric kind of a column (`Column.PrometheusValueType()`). -/
inductive VType
  | counter
  | gauge
deriving DecidableEq, Repr

/-- Raw value of one result cell (`colData[i]`, an `interface{}` in Go). -/
inductive Value
  | vNull
  | vStr (s : String)
  | vNum (n : Int)
deriving DecidableEq, Repr

/-- Column specification: name, optional rename, description, scale,
default, metric kind (the fields of the Go `Column` struct that the
query-instance code reads). -/
structure Column where
  name : String
  rename : String
  desc : String
  scale : Int
  dflt : Int
  vtype : VType
deriving DecidableEq, Repr

/-- Query specification (the fields of the Go `Query` struct that the
query-instance code reads).  `ttl` and `timeout` are durations in
nanoseconds, see the header. -/
structure Query where
  name : String
  sql : String
  ttl : Int
  timeout : Int
  labelNames : List String
  metricNames : List String
  columns : List (String × Column)
deriving DecidableEq, Repr

/-- Lookup `q.Columns[name]`.  The Go code dereferences the result without
a nil check (comment "always found"); the default column stands for the
nil dereference and is never reached under the well-formedness hypotheses
of the theorems. -/
def getColumnD (q : Query) (n : String) : Column :=
  (mapLookup q.columns n).getD ⟨"", "", "", 1, 0, VType.gauge⟩

/-- A `prometheus.Desc` as built by `prometheus.NewDesc(fqName, help,
variableLabels, constLabels)`. -/
structure Desc where
  fqName : String
  help : String
  variableLabels : List String
  constLabels : List (String × String)
deriving DecidableEq, Repr

/-- One emitted sample, as built by `prometheus.MustNewConstMetric`. -/
structure MetricSample where
  desc : Desc
  vtype : VType
  value : Int
  labels : List String
deriving DecidableEq, Repr

/-- Classification of a recorded collector error (the four distinct
`fmt.Errorf` sites of `execute`). -/
inductive QErr
  | timeout
  | queryFailed
  | metaFailed
  | scanFailed
deriving DecidableEq, Repr

/-- Error value reported by the database driver for a failed
query call (`context.DeadlineExceeded` or anything else). -/
inductive DBErr
  | deadlineExceeded
  | other
deriving DecidableEq, Repr

/-- Outcome of scanning one row: `rows.Scan` fails, or yields the cells. -/
inductive RowRes
  | scanErr
  | ok (data : List Value)
deriving DecidableEq, Repr

/-- The database's behaviour for one execution: the query call fails,
`rows.Columns()` fails, or column names plus row outcomes are returned. -/
inductive ExecOutcome
  | queryErr (e : DBErr)
  | columnsErr
  | ok (cols : List String) (rows : List RowRes)
deriving DecidableEq, Repr

/-- Which execution context `execute` uses (lines choosing between
`context.WithTimeout(ctx, q.TimeoutDuration())` and the plain query). -/
inductive ExecMode
  | withTimeout (d : Int)
  | unbounded
deriving DecidableEq, Repr

/-- The fields of the Go `Server` struct that the query-instance code
reads through `q.Server`. -/
structure Server where
  Database : String
  labels : List (String × String)
  DisableCache : Bool
  scrapeBegin : Int
deriving DecidableEq, Repr

/-- Runtime state of a query `Collector` (the Go struct's fields that the
modelled code reads or writes; the owning `Server` is passed explicitly
to the functions that read `q.Server`). -/
structure Collector where
  query : Query
  descriptors : List (String × Desc)
  result : List MetricSample
  cacheHit : Bool
  err : Option QErr
  lastScrape : Int
  scrapeBegin : Int
  scrapeDone : Int
  scrapeDuration : Int
deriving DecidableEq, Repr

/-! ## Collector construction (`makeDescMap`, `NewCollector`) -/

/-- Emitted label names: the rename when non-empty, else the column name
(first loop of `makeDescMap`). -/
def descLabelNames (q : Query) : List String :=
  q.labelNames.map (fun labelName =>
    let labelColumn := getColumnD q labelName
    if labelColumn.rename != "" then labelColumn.rename else labelColumn.name)

/-- The descriptor built for one metric column (body of the second loop
of `makeDescMap`): full name `<query-name>_<rename-or-name>`. -/
def mkDesc (q : Query) (srvLabels : List (String × String)) (col : Column) :
    Desc :=
  { fqName :=
      if col.rename != "" then q.name ++ "_" ++ col.rename
      else q.name ++ "_" ++ col.name
    help := col.desc
    variableLabels := descLabelNames q
    constLabels := srvLabels }

/-- Descriptor map built once at construction, keyed by
`metricColumn.Name` (`descriptors[metricColumn.Name] = NewDesc(...)`). -/
def makeDescMap (q : Query) (srvLabels : List (String × String)) :
    List (String × Desc) :=
  q.metricNames.foldl
    (fun m metricName =>
      let metricColumn := getColumnD q metricName
      mapInsert m metricColumn.name (mkDesc q srvLabels metricColumn))
    []

/-- `NewCollector`: zero runtime state plus the descriptor map. -/
def NewCollector (q : Query) (s : Server) : Collector :=
  { query := q
    descriptors := makeDescMap q s.labels
    result := []
    cacheHit := false
    err := none
    lastScrape := 0
    scrapeBegin := 0
    scrapeDone := 0
    scrapeDuration := 0 }

/-! ## Execution (`execute`) -/

/-- Column-name-to-index map (`columnIndexes[n] = i` loop); a duplicated
result column name keeps the last index, as in Go. -/
def buildIdxAux (m : List (String × Nat)) (i : Nat) :
    List String → List (String × Nat)
  | [] => m
  | n :: rest => buildIdxAux (mapInsert m n i) (i + 1) rest

/-- Index map for the returned column names. -/
def buildIdx (cols : List String) : List (String × Nat) :=
  buildIdxAux [] 0 cols

/-- Modelled from the spec: `castString` is not under `src/` (only its
call site is); per the source comment it yields "empty string for null
or bad labels". -/
def castString : Value → String
  | Value.vNull => ""
  | Value.vStr s => s
  | Value.vNum n => toString n

/-- Modelled from the spec: `castFloat64` is not under `src/`; per the
spec it coerces the raw value to a number, multiplies by the scale
factor, and substitutes the default when the value is null or
non-numeric. -/
def castFloat64 (v : Value) (scale : Int) (dflt : Int) : Int :=
  match v with
  | Value.vNum n => n * scale
  | _ => dflt

/-- Label values of one row: lookup by the configured (original) label
column name; a missing column yields the empty string. -/
def rowLabels (q : Query) (idx : List (String × Nat)) (data : List Value) :
    List String :=
  q.labelNames.map (fun labelName =>
    match mapLookup idx labelName with
    | some dataIndex => castString (data.getD dataIndex Value.vNull)
    | none => "")

/-- The sample built for one configured metric column of one row
(`MustNewConstMetric(q.descriptors[metricName], ...)`), or `none` when
the column is absent from the result.  Both the descriptor lookup and
the result-column lookup use the original metric column name. -/
def metricOfColumn (c : Collector) (idx : List (String × Nat))
    (data : List Value) (labels : List String) (metricName : String) :
    Option MetricSample :=
  match mapLookup idx metricName with
  | some dataIndex =>
      let col := getColumnD c.query metricName
      some
        { desc := (mapLookup c.descriptors metricName).getD
            ⟨"", "", [], []⟩
          vtype := col.vtype
          value := castFloat64 (data.getD dataIndex Value.vNull)
            col.scale col.dflt
          labels := labels }
  | none => none

/-- All samples of one row (inner metric loop of `execute`); metric
columns absent from the result are skipped. -/
def rowMetrics (c : Collector) (idx : List (String × Nat))
    (data : List Value) (labels : List String) : List MetricSample :=
  c.query.metricNames.filterMap (metricOfColumn c idx data labels)

/-- The row loop of `execute`: a scan failure records the classified
error and aborts with the samples accumulated so far; a completed loop
clears the error (`q.err = nil`). -/
def scanLoop (c : Collector) (idx : List (String × Nat)) :
    List RowRes → Collector
  | [] => { c with err := none }
  | RowRes.scanErr :: _ => { c with err := some QErr.scanFailed }
  | RowRes.ok data :: rest =>
      let labels := rowLabels c.query idx data
      scanLoop { c with result := c.result ++ rowMetrics c idx data labels }
        idx rest

/-- `execute`: reset the cache slot, then run the query; classify a
deadline-exceeded failure distinctly from a generic failure; on success
build the index map and run the row loop. -/
def execute (c : Collector) (oc : ExecOutcome) : Collector :=
  let c := { c with result := [] }
  match oc with
  | ExecOutcome.queryErr e =>
      if e = DBErr.deadlineExceeded then { c with err := some QErr.timeout }
      else { c with err := some QErr.queryFailed }
  | ExecOutcome.columnsErr => { c with err := some QErr.metaFailed }
  | ExecOutcome.ok cols rows => scanLoop c (buildIdx cols) rows

/-- The context-derivation branch of `execute` (`if q.Timeout != 0` use
`context.WithTimeout(ctx, q.TimeoutDuration())`, else run unbounded). -/
def execMode (q : Query) : ExecMode :=
  if q.timeout != 0 then ExecMode.withTimeout q.timeout
  else ExecMode.unbounded

/-! ## Cache window (`cacheExpired`, `CollectWithContext`) -/

/-- `cacheExpired`: the cache is stale iff the server's scrape-begin
minus the collector's last cache timestamp exceeds the TTL (strict). -/
def cacheExpired (c : Collector) (srv : Server) : Bool :=
  decide (srv.scrapeBegin - c.lastScrape > c.query.ttl)

/-- `CollectWithContext`: execute when the cache expired or the server's
cache is disabled, updating the cache timestamp to the server's
scrape-begin; otherwise serve the cached result and mark cache-hit.
Returns the new state and the samples sent to the channel
(`sendMetrics`).  `now`/`nowDone` are the two `time.Now()` readings. -/
def CollectWithContext (c : Collector) (srv : Server) (oc : ExecOutcome)
    (now nowDone : Int) : Collector × List MetricSample :=
  let c := { c with scrapeBegin := now }
  if cacheExpired c srv || srv.DisableCache then
    let c := execute c oc
    let c := { c with
      cacheHit := false
      scrapeDone := nowDone
      scrapeDuration := nowDone - now
      lastScrape := srv.scrapeBegin }
    (c, c.result)
  else
    let c := { c with cacheHit := true, scrapeDone := nowDone }
    (c, c.result)

/-! ## Exporter model (`exporter.go`) -/

/-- The fields of a `Server` that the exporter-level code reads: logical
database name, forked flag, scrape statistics and the per-query
statistics maps (`map[string]float64` in Go, values modelled as `Int`). -/
structure PServer where
  Database : String
  Forked : Bool
  duration : Int
  totalTime : Int
  totalCount : Int
  hasError : Bool
  queryCacheTTL : List (String × Int)
  queryScrapeTotalCount : List (String × Int)
  queryScrapeHitCount : List (String × Int)
  queryScrapeErrorCount : List (String × Int)
  queryScrapeMetricCount : List (String × Int)
  queryScrapeDuration : List (String × Int)
deriving DecidableEq, Repr

/-- A `prometheus.GaugeVec`: current value per label-value combination. -/
def GaugeVec : Type := List (List String × Int)

/-- `vec.WithLabelValues(lbls...).Set(x)`. -/
def gvSet (v : GaugeVec) (lbls : List String) (x : Int) : GaugeVec :=
  v.filter (fun kv => !(kv.1 == lbls)) ++ [(lbls, x)]

/-- `vec.WithLabelValues(lbls...).Add(x)` (a fresh child starts at 0). -/
def gvAdd (v : GaugeVec) (lbls : List String) (x : Int) : GaugeVec :=
  match v.find? (fun kv => kv.1 == lbls) with
  | some kv => gvSet v lbls (kv.2 + x)
  | none => gvSet v lbls x

/-- Label combinations currently present in a gauge vector. -/
def gvKeys (v : GaugeVec) : List (List String) :=
  v.map Prod.fst

/-- Exporter state: primary server, discovery filters, the peripheral
server map, and the labeled gauge vectors that `collectServerMetrics`
maintains.  The exclude/include maps (`map[string]bool`, keyed presence)
are modelled as their key lists. -/
structure Exporter where
  dsn : String
  excludeDatabase : List String
  includeDatabase : List String
  primary : PServer
  servers : List (String × PServer)
  serverScrapeDuration : GaugeVec
  serverScrapeTotalSeconds : GaugeVec
  serverScrapeTotalCount : GaugeVec
  serverScrapeErrorCount : GaugeVec
  queryCacheTTL : GaugeVec
  queryScrapeTotalCount : GaugeVec
  queryScrapeErrorCount : GaugeVec
  queryScrapeDuration : GaugeVec
  queryScrapeMetricCount : GaugeVec
  queryScrapeHitCount : GaugeVec

/-- Modelled from the spec: `NewServer` (constructed via `ReplaceDatname`
on the primary's DSN) is not under `src/`; per the spec the new backend
targets the given database name, starts unforked with empty statistics. -/
def NewServer (database : String) : PServer :=
  { Database := database
    Forked := false
    duration := 0
    totalTime := 0
    totalCount := 0
    hasError := false
    queryCacheTTL := []
    queryScrapeTotalCount := []
    queryScrapeHitCount := []
    queryScrapeErrorCount := []
    queryScrapeMetricCount := []
    queryScrapeDuration := [] }

/-- `CreateServer`: spawn a server for the database name, mark it forked,
insert it into the peripheral map. -/
def CreateServer (e : Exporter) (dbname : String) : Exporter :=
  let newServer := { NewServer dbname with Forked := true }
  { e with servers := mapInsert e.servers dbname newServer }

/-- `RemoveServer`: delete the peripheral map entry. -/
def RemoveServer (e : Exporter) (dbname : String) : Exporter :=
  { e with servers := mapErase e.servers dbname }

/-- The three skip conditions of `OnDatabaseChange`: the primary's own
database, the exclude list, or a non-empty include list not containing
the name. -/
def dbFiltered (e : Exporter) (dbname : String) : Bool :=
  dbname == e.primary.Database
  || e.excludeDatabase.any (fun x => x == dbname)
  || (decide (0 < e.includeDatabase.length)
      && !(e.includeDatabase.any (fun x => x == dbname)))

/-- Processing of one entry of the change map: skip when filtered, else
create (added) or remove (dropped) the peripheral server. -/
def OnDatabaseChangeStep (e : Exporter) (p : String × Bool) : Exporter :=
  if dbFiltered e p.1 then e
  else if p.2 then CreateServer e p.1
  else RemoveServer e p.1

/-- `OnDatabaseChange`: fold the change map (Go map iteration modelled as
the list order). -/
def OnDatabaseChange (e : Exporter) (change : List (String × Bool)) :
    Exporter :=
  change.foldl OnDatabaseChangeStep e

/-- `IterateServer`: snapshot of the peripheral servers. -/
def IterateServer (e : Exporter) : List PServer :=
  e.servers.map Prod.snd

/-- The servers walked by `collectServerMetrics`: the peripheral snapshot
with the primary appended. -/
def scrapedServers (e : Exporter) : List PServer :=
  IterateServer e ++ [e.primary]

/-- The `Reset()` calls opening `collectServerMetrics`. -/
def resetGauges (e : Exporter) : Exporter :=
  { e with
    serverScrapeDuration := []
    serverScrapeTotalSeconds := []
    serverScrapeTotalCount := []
    serverScrapeErrorCount := []
    queryCacheTTL := []
    queryScrapeTotalCount := []
    queryScrapeErrorCount := []
    queryScrapeDuration := []
    queryScrapeMetricCount := []
    queryScrapeHitCount := [] }

/-- One per-query statistics loop of `collectServerMetrics`: set
`{datname, query}` children from a server's statistics map. -/
def qvFold (db : String) (stats : List (String × Int)) (v : GaugeVec) :
    GaugeVec :=
  stats.foldl (fun v p => gvSet v [db, p.1] p.2) v

/-- The body of the server loop of `collectServerMetrics` for one server. -/
def csmStep (e : Exporter) (s : PServer) : Exporter :=
  { e with
    serverScrapeDuration :=
      gvSet e.serverScrapeDuration [s.Database] s.duration
    serverScrapeTotalSeconds :=
      gvSet e.serverScrapeTotalSeconds [s.Database] s.totalTime
    serverScrapeTotalCount :=
      gvSet e.serverScrapeTotalCount [s.Database] s.totalCount
    serverScrapeErrorCount :=
      if s.hasError then gvAdd e.serverScrapeErrorCount [s.Database] 1
      else e.serverScrapeErrorCount
    queryCacheTTL := qvFold s.Database s.queryCacheTTL e.queryCacheTTL
    queryScrapeTotalCount :=
      qvFold s.Database s.queryScrapeTotalCount e.queryScrapeTotalCount
    queryScrapeErrorCount :=
      qvFold s.Database s.queryScrapeErrorCount e.queryScrapeErrorCount
    queryScrapeDuration :=
      qvFold s.Database s.queryScrapeDuration e.queryScrapeDuration
    queryScrapeMetricCount :=
      qvFold s.Database s.queryScrapeMetricCount e.queryScrapeMetricCount
    queryScrapeHitCount :=
      qvFold s.Database s.queryScrapeHitCount e.queryScrapeHitCount }

/-- `collectServerMetrics`: reset every gauge vector, then repopulate
from the snapshot plus the primary (the Go function's `*Server` parameter
is shadowed by the loop variable and never read). -/
def collectServerMetrics (e : Exporter) : Exporter :=
  (scrapedServers e).foldl csmStep (resetGauges e)

/-- A label combination belonging to one of the given servers
(server-level gauge vectors are keyed `{datname}`). -/
def serverKey (ss : List PServer) (k : List String) : Prop :=
  ∃ s, s ∈ ss ∧ k = [s.Database]

/-- A label combination belonging to one of the given servers and one of
the query names in the selected statistics map of that server
(query-level gauge vectors are keyed `{datname, query}`). -/
def queryKey (ss : List PServer) (stats : PServer → List (String × Int))
    (k : List String) : Prop :=
  ∃ s, s ∈ ss ∧ ∃ qn, qn ∈ (stats s).map Prod.fst ∧ k = [s.Database, qn]

/-! ## Concrete fixtures used by witnesses and counterexamples -/

/-- Label column `datname`, no rename. -/
def wColumnDat : Column :=
  { name := "datname", rename := "", desc := "db name", scale := 1,
    dflt := 0, vtype := VType.gauge }

/-- Metric column `size`, renamed to `bytes`. -/
def wColumnSize : Column :=
  { name := "size", rename := "bytes", desc := "db size", scale := 1,
    dflt := 0, vtype := VType.gauge }

/-- Sample query: TTL 10, timeout 5, one label and one metric column. -/
def wQuery : Query :=
  { name := "db", sql := "SELECT datname, size FROM x", ttl := 10,
    timeout := 5, labelNames := ["datname"], metricNames := ["size"],
    columns := [("datname", wColumnDat), ("size", wColumnSize)] }

/-- Sample server: cache enabled, scrape-begin at 20. -/
def wServer : Server :=
  { Database := "postgres", labels := [("ins", "a")],
    DisableCache := false, scrapeBegin := 20 }

/-- A cached sample from a previous cycle. -/
def wCached : MetricSample :=
  { desc := mkDesc wQuery wServer.labels wColumnSize,
    vtype := VType.gauge, value := 100, labels := ["a"] }

/-- Collector whose cache is exactly at the TTL boundary
(`wServer.scrapeBegin - lastScrape = 10 = ttl`). -/
def wCollector : Collector :=
  { NewCollector wQuery wServer with lastScrape := 10, result := [wCached] }

/-- A database response delivering one well-formed row. -/
def wOutcome : ExecOutcome :=
  ExecOutcome.ok ["datname", "size"]
    [RowRes.ok [Value.vStr "a", Value.vNum 100]]

/-- Query for the fail-closed counterexample: one metric column `m`. -/
def c2Query : Query :=
  { name := "q2", sql := "SELECT m FROM t", ttl := 10, timeout := 0,
    labelNames := [], metricNames := ["m"],
    columns :=
      [("m", { name := "m", rename := "", desc := "", scale := 1,
               dflt := 0, vtype := VType.gauge })] }

/-- Server for the fail-closed counterexample: expired window
(`scrapeBegin 11 - lastScrape 0 > ttl 10`). -/
def c2Server : Server :=
  { Database := "postgres", labels := [], DisableCache := false,
    scrapeBegin := 11 }

/-- Collector holding one previously cached sample (value 99). -/
def c2Collector : Collector :=
  { NewCollector c2Query c2Server with
    result := [{ desc := mkDesc c2Query [] (getColumnD c2Query "m"),
                 vtype := VType.gauge, value := 99, labels := [] }] }

/-- Response whose first row scans fine and second row fails to scan. -/
def c2Outcome : ExecOutcome :=
  ExecOutcome.ok ["m"] [RowRes.ok [Value.vNum 3], RowRes.scanErr]

/-- Server with the cache globally disabled (scrape-begin 100). -/
def dSrv : Server :=
  { Database := "postgres", labels := [], DisableCache := true,
    scrapeBegin := 100 }

/-- Collector bound to the cache-disabled server. -/
def dCollector : Collector :=
  NewCollector c2Query dSrv

/-- Builder for small exporter states (all gauge vectors empty). -/
def mkExporter (excl incl : List String) (primary : PServer)
    (servers : List (String × PServer)) : Exporter :=
  { dsn := "postgres:///postgres"
    excludeDatabase := excl
    includeDatabase := incl
    primary := primary
    servers := servers
    serverScrapeDuration := []
    serverScrapeTotalSeconds := []
    serverScrapeTotalCount := []
    serverScrapeErrorCount := []
    queryCacheTTL := []
    queryScrapeTotalCount := []
    queryScrapeErrorCount := []
    queryScrapeDuration := []
    queryScrapeMetricCount := []
    queryScrapeHitCount := [] }

/-- Exporter excluding `dbA`, no peripheral servers. -/
def ew6 : Exporter :=
  mkExporter ["dbA"] [] (NewServer "postgres") []

/-- Exporter with no filters, no peripheral servers. -/
def ew7 : Exporter :=
  mkExporter [] [] (NewServer "postgres") []

/-- Peripheral server `a` with one per-query statistic. -/
def sA : PServer :=
  { NewServer "a" with queryCacheTTL := [("q1", 7)] }

/-- Exporter whose gauge vectors still hold entries of a removed backend
`old`, with one live peripheral server `a`. -/
def ew8 : Exporter :=
  { mkExporter [] [] { NewServer "pg" with queryCacheTTL := [("q1", 3)] }
      [("a", sA)] with
    serverScrapeDuration := [(["old"], 1)]
    queryCacheTTL := [(["old", "q"], 5)] }

/-! ## Helper lemmas about the map model -/

theorem find?_filter_ne {α : Type} (m : List (String × α)) (k : String) :
    (m.filter (fun kv => !(kv.1 == k))).find? (fun kv => kv.1 == k)
      = none := by
  induction m with
  | nil => rfl
  | cons a m ih =>
      by_cases h : a.1 = k
      · have hb : (a.1 == k) = true := by simp [h]
        simp [List.filter_cons, hb, ih]
      · have hb : (a.1 == k) = false := by simp [h]
        simp [List.filter_cons, hb, List.find?_cons, ih]

theorem find?_filter_other {α : Type} (m : List (String × α))
    (k x : String) (h : x ≠ k) :
    (m.filter (fun kv => !(kv.1 == k))).find? (fun kv => kv.1 == x)
      = m.find? (fun kv => kv.1 == x) := by
  induction m with
  | nil => rfl
  | cons a m ih =>
      by_cases hak : a.1 = k
      · have hb : (a.1 == k) = true := by simp [hak]
        have hax : (a.1 == x) = false := by
          simp [hak]
          exact fun hkx => h hkx.symm
        simp [List.filter_cons, hb, List.find?_cons, hax, ih]
      · have hb : (a.1 == k) = false := by simp [hak]
        by_cases hax : a.1 = x
        · have haxb : (a.1 == x) = true := by simp [hax]
          simp [List.filter_cons, hb, List.find?_cons, haxb]
        · have haxb : (a.1 == x) = false := by simp [hax]
          simp [List.filter_cons, hb, List.find?_cons, haxb, ih]

theorem mapLookup_mapInsert {α : Type} (m : List (String × α))
    (k : String) (v : α) (x : String) :
    mapLookup (mapInsert m k v) x
      = if x = k then some v else mapLookup m x := by
  by_cases h : x = k
  · subst h
    rw [mapLookup, mapInsert, List.find?_append, find?_filter_ne]
    simp
  · rw [mapLookup, mapInsert, List.find?_append,
      find?_filter_other m k x h]
    rw [if_neg h, mapLookup]
    have hkx : (k == x) = false := by simp [Ne.symm h]
    have hkv : List.find? (fun kv => kv.1 == x) [(k, v)] = none := by
      simp [List.find?_cons, hkx]
    rw [hkv]
    simp

theorem countP_filter_ne {α : Type} (m : List (String × α)) (k : String) :
    (m.filter (fun kv => !(kv.1 == k))).countP (fun kv => kv.1 == k)
      = 0 := by
  induction m with
  | nil => rfl
  | cons a m ih =>
      by_cases h : a.1 = k
      · have hb : (a.1 == k) = true := by simp [h]
        simp [List.filter_cons, hb, ih]
      · have hb : (a.1 == k) = false := by simp [h]
        simp [List.filter_cons, hb, List.countP_cons, ih]

theorem countP_filter_other {α : Type} (m : List (String × α))
    (k x : String) (h : x ≠ k) :
    (m.filter (fun kv => !(kv.1 == k))).countP (fun kv => kv.1 == x)
      = m.countP (fun kv => kv.1 == x) := by
  induction m with
  | nil => rfl
  | cons a m ih =>
      by_cases hak : a.1 = k
      · have hb : (a.1 == k) = true := by simp [hak]
        have hax : (a.1 == x) = false := by
          simp [hak]
          exact fun hkx => h hkx.symm
        simp [List.filter_cons, hb, List.countP_cons, hax, ih]
      · have hb : (a.1 == k) = false := by simp [hak]
        simp [List.filter_cons, hb, List.countP_cons, ih]

theorem countKey_mapInsert {α : Type} (m : List (String × α))
    (k : String) (v : α) (x : String) :
    countKey (mapInsert m k v) x
      = if x = k then 1 else countKey m x := by
  by_cases h : x = k
  · subst h
    rw [countKey, mapInsert, List.countP_append, countP_filter_ne]
    simp [List.countP_cons]
  · rw [countKey, mapInsert, List.countP_append,
      countP_filter_other m k x h, if_neg h, countKey]
    have : (k == x) = false := by simp [Ne.symm h]
    simp [List.countP_cons, this]

theorem mapErase_of_not_mem {α : Type} (m : List (String × α))
    (k : String) (h : ¬ k ∈ m.map Prod.fst) :
    mapErase m k = m := by
  induction m with
  | nil => rfl
  | cons a m ih =>
      have hak : (a.1 == k) = false := by
        simp
        intro hh
        exact h (by simp [hh])
      have hm : ¬ k ∈ m.map Prod.fst := by
        intro hh
        exact h (by simp [hh])
      have hmm := ih hm
      rw [mapErase] at hmm
      simp [mapErase, List.filter_cons, hak, hmm]

theorem buildIdxAux_lookup_isSome (cols : List String) :
    ∀ (m : List (String × Nat)) (i : Nat) (x : String),
      ((mapLookup (buildIdxAux m i cols) x).isSome = true
        ↔ (x ∈ cols ∨ (mapLookup m x).isSome = true)) := by
  induction cols with
  | nil =>
      intro m i x
      simp [buildIdxAux]
  | cons n rest ih =>
      intro m i x
      rw [buildIdxAux]
      rw [ih (mapInsert m n i) (i + 1) x]
      rw [mapLookup_mapInsert]
      by_cases hx : x = n
      · simp [hx]
      · simp [hx]
        try tauto

theorem buildIdx_lookup_isSome (cols : List String) (x : String) :
    (mapLookup (buildIdx cols) x).isSome = true ↔ x ∈ cols := by
  rw [buildIdx, buildIdxAux_lookup_isSome]
  simp [mapLookup]

theorem buildIdx_lookup_none (cols : List String) (x : String)
    (h : ¬ x ∈ cols) : mapLookup (buildIdx cols) x = none := by
  have := buildIdx_lookup_isSome cols x
  cases hl : mapLookup (buildIdx cols) x with
  | none => rfl
  | some i =>
      exact absurd (this.mp (by simp [hl])) h

/-! ## Helper lemmas about the collector -/

theorem scanLoop_fields (idx : List (String × Nat)) (rows : List RowRes) :
    ∀ c : Collector,
      (scanLoop c idx rows).query = c.query
      ∧ (scanLoop c idx rows).descriptors = c.descriptors
      ∧ (scanLoop c idx rows).lastScrape = c.lastScrape
      ∧ (scanLoop c idx rows).cacheHit = c.cacheHit
      ∧ (scanLoop c idx rows).scrapeBegin = c.scrapeBegin := by
  induction rows with
  | nil => intro c; simp [scanLoop]
  | cons r rest ih =>
      intro c
      cases r with
      | scanErr => simp [scanLoop]
      | ok data => simpa [scanLoop] using ih _

theorem execute_fields (c : Collector) (oc : ExecOutcome) :
    (execute c oc).query = c.query
    ∧ (execute c oc).descriptors = c.descriptors
    ∧ (execute c oc).lastScrape = c.lastScrape
    ∧ (execute c oc).cacheHit = c.cacheHit
    ∧ (execute c oc).scrapeBegin = c.scrapeBegin := by
  cases oc with
  | queryErr e =>
      by_cases h : e = DBErr.deadlineExceeded <;> simp [execute, h]
  | columnsErr => simp [execute]
  | ok cols rows => simpa [execute] using scanLoop_fields (buildIdx cols) rows _

theorem scanLoop_err_none (idx : List (String × Nat)) (rows : List RowRes)
    (hok : ∀ r ∈ rows, r ≠ RowRes.scanErr) :
    ∀ c : Collector, (scanLoop c idx rows).err = none := by
  induction rows with
  | nil => intro c; simp [scanLoop]
  | cons r rest ih =>
      intro c
      cases r with
      | scanErr => exact absurd rfl (hok RowRes.scanErr (by simp))
      | ok data =>
          exact ih (fun r hr => hok r (by simp [hr])) _

theorem scanLoop_append_scanErr (idx : List (String × Nat))
    (rest : List RowRes) (good : List RowRes) :
    ∀ c : Collector,
      (scanLoop c idx (good ++ RowRes.scanErr :: rest)).err
          = some QErr.scanFailed
      ∧ (scanLoop c idx (good ++ RowRes.scanErr :: rest)).result
          = (scanLoop c idx good).result := by
  induction good with
  | nil => intro c; simp [scanLoop]
  | cons r g ih =>
      intro c
      cases r with
      | scanErr => simp [scanLoop]
      | ok data => simpa [scanLoop] using ih _

/-! ## Claim theorems -/

/-- Claim C1: for every configured TTL `t` and elapsed window `d` (server
scrape-begin minus the collector's last cache timestamp),
`CollectWithContext` executes the query (marking the scrape as not a
cache hit) iff `d > t` or the server's cache is globally disabled; when
`d = t` (cache enabled) it serves the cached sample set and marks
cache-hit — the freshness boundary is inclusive. -/
theorem cacheBoundary (c : Collector) (srv : Server) (oc : ExecOutcome)
    (now nd : Int) :
    ((CollectWithContext c srv oc now nd).1.cacheHit = false
      ↔ (srv.scrapeBegin - c.lastScrape > c.query.ttl
          ∨ srv.DisableCache = true))
    ∧ (srv.scrapeBegin - c.lastScrape = c.query.ttl →
        srv.DisableCache = false →
        (CollectWithContext c srv oc now nd).1.cacheHit = true
        ∧ (CollectWithContext c srv oc now nd).2 = c.result) := by
  have hEq : cacheExpired { c with scrapeBegin := now } srv
      = decide (srv.scrapeBegin - c.lastScrape > c.query.ttl) := rfl
  cases hE : cacheExpired { c with scrapeBegin := now } srv with
  | true =>
      have hgt : srv.scrapeBegin - c.lastScrape > c.query.ttl := by
        rw [hEq] at hE
        exact of_decide_eq_true hE
      constructor
      · simp [CollectWithContext, hE]
        exact Or.inl hgt
      · intro heq _
        rw [heq] at hgt
        exact absurd hgt (lt_irrefl _)
  | false =>
      have hle : ¬ srv.scrapeBegin - c.lastScrape > c.query.ttl := by
        rw [hEq] at hE
        exact of_decide_eq_false hE
      cases hD : srv.DisableCache with
      | true =>
          constructor
          · simp [CollectWithContext, hE, hD]
          · intro _ hfalse
            simp at hfalse
      | false =>
          constructor
          · simp [CollectWithContext, hE, hD, hle]
          · intro _ _
            constructor
            · simp [CollectWithContext, hE, hD]
            · simp [CollectWithContext, hE, hD]

/-- Witness for C1 at the boundary `d = t = 10`: the cached sample set is
served and cache-hit is marked. -/
theorem cacheBoundary_witness :
    (CollectWithContext wCollector wServer wOutcome 21 22).1.cacheHit = true
    ∧ (CollectWithContext wCollector wServer wOutcome 21 22).2
        = wCollector.result :=
  (cacheBoundary wCollector wServer wOutcome 21 22).2 (by decide) (by decide)

/-- Counterexample to claim C2 as stated: with an expired cache holding
one sample from the previous cycle, a re-execution that fails at the scan
of the second row leaves ONE freshly built sample in the cache for the
failed cycle, not zero (the first row was already appended before the
scan failure), while the error is recorded. -/
theorem failClosed_cex :
    cacheExpired c2Collector c2Server = true
    ∧ c2Collector.result.length = 1
    ∧ (CollectWithContext c2Collector c2Server c2Outcome 11 12).1.err
        = some QErr.scanFailed
    ∧ (CollectWithContext c2Collector c2Server c2Outcome 11 12).1.result.length
        = 1
    ∧ (CollectWithContext c2Collector c2Server c2Outcome 11 12).1.result
        ≠ c2Collector.result := by
  decide

/-- Claim C2 (amended): the cache slot is cleared before re-execution
begins, so the old cache is never part of a failed cycle's result; a
failed query call or failed column-metadata retrieval yields zero cached
samples; a row-scan failure records the error and yields exactly the
samples built from the rows before the failing row (which may be more
than zero). -/
theorem failClosed (c : Collector) (oc : ExecOutcome) :
    (execute c oc).result = (execute { c with result := [] } oc).result
    ∧ (∀ e, oc = ExecOutcome.queryErr e → (execute c oc).result = [])
    ∧ (oc = ExecOutcome.columnsErr → (execute c oc).result = [])
    ∧ (∀ cols good rest,
        oc = ExecOutcome.ok cols (good ++ RowRes.scanErr :: rest) →
        (execute c oc).err = some QErr.scanFailed
        ∧ (execute c oc).result
            = (execute c (ExecOutcome.ok cols good)).result) := by
  refine ⟨rfl, ?_, ?_, ?_⟩
  · intro e h
    subst h
    by_cases he : e = DBErr.deadlineExceeded <;> simp [execute, he]
  · intro h
    subst h
    simp [execute]
  · intro cols good rest h
    subst h
    simpa [execute] using
      scanLoop_append_scanErr (buildIdx cols) rest good { c with result := [] }

/-- Witness for C2 (amended) on the concrete failing exchange: the error
is recorded and the result equals that of executing only the prefix row. -/
theorem failClosed_witness :
    (execute c2Collector c2Outcome).err = some QErr.scanFailed
    ∧ (execute c2Collector c2Outcome).result
        = (execute c2Collector
            (ExecOutcome.ok ["m"] [RowRes.ok [Value.vNum 3]])).result :=
  (failClosed c2Collector c2Outcome).2.2.2 ["m"] [RowRes.ok [Value.vNum 3]]
    [] rfl

/-! Lookup characterisation of the descriptor map. -/

theorem makeDescMap_lookup_aux (q : Query) (L : List (String × String))
    (names : List String)
    (hwf : ∀ x ∈ names, (getColumnD q x).name = x) :
    ∀ (m0 : List (String × Desc)) (k : String),
      mapLookup
        (names.foldl
          (fun m mn => mapInsert m (getColumnD q mn).name
            (mkDesc q L (getColumnD q mn))) m0) k
        = if k ∈ names then some (mkDesc q L (getColumnD q k))
          else mapLookup m0 k := by
  induction names with
  | nil =>
      intro m0 k
      simp
  | cons n rest ih =>
      intro m0 k
      have hn : (getColumnD q n).name = n := hwf n (by simp)
      have hrest : ∀ x ∈ rest, (getColumnD q x).name = x :=
        fun x hx => hwf x (by simp [hx])
      rw [List.foldl_cons, ih hrest, hn]
      by_cases hkr : k ∈ rest
      · simp [hkr]
      · rw [if_neg hkr, mapLookup_mapInsert]
        by_cases hkn : k = n
        · subst hkn
          simp
        · simp [hkn, hkr]

/-- Claim C3: for every metric column with a non-empty rename, the
descriptor built once at construction carries the renamed metric full
name `<query-name>_<rename>` (and a renamed label column appears under
its rename in the emitted label names), while the descriptor map stays
keyed by the original column name and the result-column lookup during
row scanning finds the column iff the ORIGINAL name is among the result
columns, attaching the descriptor looked up by the original name. -/
theorem renameKeying (q : Query) (L : List (String × String)) (mn : String)
    (hwf : ∀ x ∈ q.metricNames, (getColumnD q x).name = x)
    (hmem : mn ∈ q.metricNames)
    (hren : (getColumnD q mn).rename ≠ "") :
    mapLookup (makeDescMap q L) mn = some (mkDesc q L (getColumnD q mn))
    ∧ (mkDesc q L (getColumnD q mn)).fqName
        = q.name ++ "_" ++ (getColumnD q mn).rename
    ∧ (∀ i ln, q.labelNames.get? i = some ln →
        (getColumnD q ln).rename ≠ "" →
        (descLabelNames q).get? i = some (getColumnD q ln).rename)
    ∧ (∀ (c : Collector) (cols : List String) (data : List Value)
          (lbls : List String),
        c.query = q → c.descriptors = makeDescMap q L →
        ((metricOfColumn c (buildIdx cols) data lbls mn).isSome = true
          ↔ mn ∈ cols)
        ∧ (∀ s, metricOfColumn c (buildIdx cols) data lbls mn = some s →
            s.desc = mkDesc q L (getColumnD q mn))) := by
  have hb : ((getColumnD q mn).rename != "") = true := by
    simp [hren]
  have hlook : mapLookup (makeDescMap q L) mn
      = some (mkDesc q L (getColumnD q mn)) := by
    rw [makeDescMap, makeDescMap_lookup_aux q L q.metricNames hwf []]
    simp [hmem]
  refine ⟨hlook, ?_, ?_, ?_⟩
  · simp [mkDesc, hb]
  · intro i ln hi hlr
    have hlb : ((getColumnD q ln).rename != "") = true := by simp [hlr]
    rw [descLabelNames, List.get?_map, hi]
    simp [hlb]
    intro h
    exact absurd h hlr
  · intro c cols data lbls hq hd
    constructor
    · have hsome : (metricOfColumn c (buildIdx cols) data lbls mn).isSome
          = (mapLookup (buildIdx cols) mn).isSome := by
        rw [metricOfColumn]
        cases mapLookup (buildIdx cols) mn <;> rfl
      rw [hsome]
      exact buildIdx_lookup_isSome cols mn
    · intro s hs
      rw [metricOfColumn] at hs
      cases hl : mapLookup (buildIdx cols) mn with
      | none =>
          rw [hl] at hs
          simp at hs
      | some i =>
          rw [hl] at hs
          simp only [Option.some.injEq] at hs
          rw [← hs]
          simp [hd, hq, hlook]

/-- Witness for C3 on `wQuery`, whose metric column `size` is renamed to
`bytes`. -/
theorem renameKeying_witness :
    mapLookup (makeDescMap wQuery [("ins", "a")]) "size"
      = some (mkDesc wQuery [("ins", "a")] (getColumnD wQuery "size"))
    ∧ (mkDesc wQuery [("ins", "a")] (getColumnD wQuery "size")).fqName
        = wQuery.name ++ "_" ++ (getColumnD wQuery "size").rename
    ∧ (∀ i ln, wQuery.labelNames.get? i = some ln →
        (getColumnD wQuery ln).rename ≠ "" →
        (descLabelNames wQuery).get? i = some (getColumnD wQuery ln).rename)
    ∧ (∀ (c : Collector) (cols : List String) (data : List Value)
          (lbls : List String),
        c.query = wQuery → c.descriptors = makeDescMap wQuery [("ins", "a")] →
        ((metricOfColumn c (buildIdx cols) data lbls "size").isSome = true
          ↔ "size" ∈ cols)
        ∧ (∀ s, metricOfColumn c (buildIdx cols) data lbls "size" = some s →
            s.desc = mkDesc wQuery [("ins", "a")] (getColumnD wQuery "size"))) :=
  renameKeying wQuery [("ins", "a")] "size" (by decide) (by decide) (by decide)

/-! Length of the emitted sample list of one row. -/

theorem filterMap_length_eq_filter {β : Type} (f : String → Option β)
    (p : String → Bool) (hf : ∀ x, (f x).isSome = p x) :
    ∀ l : List String, (l.filterMap f).length = (l.filter p).length := by
  intro l
  induction l with
  | nil => rfl
  | cons x xs ih =>
      cases hfx : f x with
      | none =>
          have hp : p x = false := by rw [← hf x, hfx]; rfl
          simp [List.filterMap_cons, List.filter_cons, hfx, hp, ih]
      | some b =>
          have hp : p x = true := by rw [← hf x, hfx]; rfl
          simp [List.filterMap_cons, List.filter_cons, hfx, hp, ih]

/-- Claim C4: with a result lacking configured columns (all rows
scanning fine), the execution ends with no recorded error; a configured
label column missing from the result yields an empty-string label at its
position; a configured metric column missing from the result produces no
sample; and each row contributes exactly one sample per configured
metric column that IS present — the scrape proceeds with partial data. -/
theorem missingColumns (c : Collector) (cols : List String)
    (rows : List RowRes) (hok : ∀ r ∈ rows, r ≠ RowRes.scanErr) :
    (execute c (ExecOutcome.ok cols rows)).err = none
    ∧ (∀ (data : List Value) (i : Nat) (ln : String),
        c.query.labelNames.get? i = some ln → ¬ ln ∈ cols →
        (rowLabels c.query (buildIdx cols) data).get? i = some "")
    ∧ (∀ (data : List Value) (lbls : List String) (mn : String),
        ¬ mn ∈ cols →
        metricOfColumn c (buildIdx cols) data lbls mn = none)
    ∧ (∀ (data : List Value) (lbls : List String),
        (rowMetrics c (buildIdx cols) data lbls).length
          = (c.query.metricNames.filter
              (fun mn => decide (mn ∈ cols))).length) := by
  refine ⟨?_, ?_, ?_, ?_⟩
  · simpa [execute] using
      scanLoop_err_none (buildIdx cols) rows hok { c with result := [] }
  · intro data i ln hi hmiss
    rw [rowLabels, List.get?_map, hi]
    simp [buildIdx_lookup_none cols ln hmiss]
  · intro data lbls mn hmiss
    rw [metricOfColumn, buildIdx_lookup_none cols mn hmiss]
  · intro data lbls
    refine filterMap_length_eq_filter _ _ ?_ c.query.metricNames
    intro mn
    cases hl : mapLookup (buildIdx cols) mn with
    | none =>
        have : ¬ mn ∈ cols := by
          intro hmem
          have := (buildIdx_lookup_isSome cols mn).mpr hmem
          rw [hl] at this
          simp at this
        simp [metricOfColumn, hl, this]
    | some i =>
        have : mn ∈ cols :=
          (buildIdx_lookup_isSome cols mn).mp (by simp [hl])
        simp [metricOfColumn, hl, this]

/-- Witness for C4: result column set `{other}` lacks both the label
column `datname` and the metric column `size`. -/
theorem missingColumns_witness :
    (execute wCollector (ExecOutcome.ok ["other"]
        [RowRes.ok [Value.vNum 1]])).err = none
    ∧ (∀ (data : List Value) (i : Nat) (ln : String),
        wCollector.query.labelNames.get? i = some ln → ¬ ln ∈ ["other"] →
        (rowLabels wCollector.query (buildIdx ["other"]) data).get? i
          = some "")
    ∧ (∀ (data : List Value) (lbls : List String) (mn : String),
        ¬ mn ∈ ["other"] →
        metricOfColumn wCollector (buildIdx ["other"]) data lbls mn = none)
    ∧ (∀ (data : List Value) (lbls : List String),
        (rowMetrics wCollector (buildIdx ["other"]) data lbls).length
          = (wCollector.query.metricNames.filter
              (fun mn => decide (mn ∈ ["other"]))).length) :=
  missingColumns wCollector ["other"] [RowRes.ok [Value.vNum 1]] (by decide)

/-- Claim C5: a positive configured timeout makes `execute` derive a
deadline-bound context carrying that timeout (timeout 0 runs unbounded),
and a deadline-exceeded failure is recorded as the timeout-classified
error, distinct from the generic execution-failure classification. -/
theorem timeoutClassified (c : Collector) :
    (c.query.timeout ≠ 0 →
      execMode c.query = ExecMode.withTimeout c.query.timeout)
    ∧ (c.query.timeout = 0 → execMode c.query = ExecMode.unbounded)
    ∧ (execute c (ExecOutcome.queryErr DBErr.deadlineExceeded)).err
        = some QErr.timeout
    ∧ (execute c (ExecOutcome.queryErr DBErr.other)).err
        = some QErr.queryFailed
    ∧ QErr.timeout ≠ QErr.queryFailed := by
  refine ⟨?_, ?_, ?_, ?_, by decide⟩
  · intro h
    simp [execMode, h]
  · intro h
    simp [execMode, h]
  · simp [execute]
  · simp [execute]

/-- Witness for C5 on `wQuery` (timeout 5). -/
theorem timeoutClassified_witness :
    wCollector.query.timeout ≠ 0
    ∧ execMode wCollector.query
        = ExecMode.withTimeout wCollector.query.timeout
    ∧ (execute wCollector (ExecOutcome.queryErr DBErr.deadlineExceeded)).err
        = some QErr.timeout :=
  ⟨by decide, (timeoutClassified wCollector).1 (by decide),
    (timeoutClassified wCollector).2.2.1⟩

/-! Branch lemmas for `CollectWithContext`. -/

theorem collect_executes (c : Collector) (srv : Server) (oc : ExecOutcome)
    (now nd : Int) (h : (cacheExpired c srv || srv.DisableCache) = true) :
    (CollectWithContext c srv oc now nd).1
      = { execute { c with scrapeBegin := now } oc with
          cacheHit := false, scrapeDone := nd, scrapeDuration := nd - now,
          lastScrape := srv.scrapeBegin }
    ∧ (CollectWithContext c srv oc now nd).2
        = (CollectWithContext c srv oc now nd).1.result := by
  have h' : (cacheExpired { c with scrapeBegin := now } srv
      || srv.DisableCache) = true := h
  constructor
  · simp [CollectWithContext, h']
  · simp [CollectWithContext, h']

theorem collect_cached (c : Collector) (srv : Server) (oc : ExecOutcome)
    (now nd : Int) (h : (cacheExpired c srv || srv.DisableCache) = false) :
    (CollectWithContext c srv oc now nd).1
      = { c with scrapeBegin := now, cacheHit := true, scrapeDone := nd }
    ∧ (CollectWithContext c srv oc now nd).2 = c.result := by
  have h' : (cacheExpired { c with scrapeBegin := now } srv
      || srv.DisableCache) = false := h
  constructor
  · simp [CollectWithContext, h']
  · simp [CollectWithContext, h']

/-! Configuration fields are invariant under discovery processing. -/

theorem step_config (e : Exporter) (p : String × Bool) :
    (OnDatabaseChangeStep e p).primary = e.primary
    ∧ (OnDatabaseChangeStep e p).excludeDatabase = e.excludeDatabase
    ∧ (OnDatabaseChangeStep e p).includeDatabase = e.includeDatabase
    ∧ (OnDatabaseChangeStep e p).dsn = e.dsn := by
  rw [OnDatabaseChangeStep]
  by_cases h1 : dbFiltered e p.1
  · simp [h1]
  · by_cases h2 : p.2 <;> simp [h1, h2, CreateServer, RemoveServer]

theorem dbFiltered_step (e : Exporter) (p : String × Bool) (x : String) :
    dbFiltered (OnDatabaseChangeStep e p) x = dbFiltered e x := by
  have h := step_config e p
  rw [dbFiltered, dbFiltered, h.1, h.2.1, h.2.2.1]

theorem fold_config (change : List (String × Bool)) :
    ∀ e : Exporter,
      (OnDatabaseChange e change).primary = e.primary
      ∧ (OnDatabaseChange e change).excludeDatabase = e.excludeDatabase
      ∧ (OnDatabaseChange e change).includeDatabase = e.includeDatabase := by
  induction change with
  | nil => intro e; exact ⟨rfl, rfl, rfl⟩
  | cons p rest ih =>
      intro e
      have hs := step_config e p
      have hr := ih (OnDatabaseChangeStep e p)
      rw [OnDatabaseChange, List.foldl_cons]
      exact ⟨hr.1.trans hs.1, (hr.2.1).trans hs.2.1,
        (hr.2.2).trans hs.2.2.1⟩

theorem dbFiltered_fold (e : Exporter) (change : List (String × Bool))
    (x : String) :
    dbFiltered (OnDatabaseChange e change) x = dbFiltered e x := by
  have h := fold_config change e
  rw [dbFiltered, dbFiltered, h.1, h.2.1, h.2.2]

theorem dbFiltered_true_iff (e : Exporter) (n : String) :
    dbFiltered e n = true
      ↔ (n = e.primary.Database ∨ n ∈ e.excludeDatabase
          ∨ (e.includeDatabase ≠ [] ∧ ¬ n ∈ e.includeDatabase)) := by
  rw [dbFiltered]
  simp [List.any_eq_true, List.length_pos]
  constructor
  · intro h
    rcases h with (h | h) | ⟨h1, h2⟩
    · exact Or.inl h
    · exact Or.inr (Or.inl h)
    · exact Or.inr (Or.inr ⟨h1, fun hm => h2 n hm rfl⟩)
  · intro h
    rcases h with h | h | ⟨h1, h2⟩
    · exact Or.inl (Or.inl h)
    · exact Or.inl (Or.inr h)
    · refine Or.inr ⟨h1, ?_⟩
      intro x hx hxn
      rw [hxn] at hx
      exact h2 hx

/-- Claim C6: an entry of a discovery change map whose database name is
the primary's database, or is in the exclude set, or misses a configured
non-empty include set, creates and removes nothing: processing the
change map with that entry equals processing it without the entry, for
any position of the entry and either direction (added or removed). -/
theorem discoveryFilters (e : Exporter) (pre post : List (String × Bool))
    (dbname : String) (add : Bool)
    (h : dbname = e.primary.Database ∨ dbname ∈ e.excludeDatabase
        ∨ (e.includeDatabase ≠ [] ∧ ¬ dbname ∈ e.includeDatabase)) :
    OnDatabaseChange e (pre ++ (dbname, add) :: post)
      = OnDatabaseChange (OnDatabaseChange e pre) post := by
  have hf : dbFiltered (OnDatabaseChange e pre) dbname = true := by
    rw [dbFiltered_fold]
    exact (dbFiltered_true_iff e dbname).mpr h
  have hstep : OnDatabaseChangeStep (OnDatabaseChange e pre) (dbname, add)
      = OnDatabaseChange e pre := by
    rw [OnDatabaseChangeStep]
    simp [hf]
  simp only [OnDatabaseChange] at hstep ⊢
  rw [List.foldl_append, List.foldl_cons, hstep]

/-- Witness for C6, end-to-end scenario D: discovery reports `dbA` added,
`dbA` is in the exclude set, and no peripheral backend is created. -/
theorem discoveryFilters_witness :
    OnDatabaseChange ew6 [("dbA", true)] = ew6
    ∧ (OnDatabaseChange ew6 [("dbA", true)]).servers = [] := by
  have h := discoveryFilters ew6 [] [] "dbA" true
    (Or.inr (Or.inl (by decide)))
  constructor
  · simpa [OnDatabaseChange] using h
  · have h2 : OnDatabaseChange ew6 [("dbA", true)] = ew6 := by
      simpa [OnDatabaseChange] using h
    rw [h2]
    rfl

/-! Counting peripheral-map entries across discovery processing. -/

theorem countKey_onDatabaseChange (change : List (String × Bool)) :
    ∀ (e : Exporter) (n : String), (∀ p ∈ change, p.2 = true) →
      countKey (OnDatabaseChange e change).servers n
        = if change.any (fun p => p.1 == n && !(dbFiltered e p.1)) then 1
          else countKey e.servers n := by
  induction change with
  | nil =>
      intro e n _
      simp [OnDatabaseChange]
  | cons p rest ih =>
      intro e n hadd
      have hp : p.2 = true := hadd p (by simp)
      have hrest : ∀ q ∈ rest, q.2 = true :=
        fun q hq => hadd q (by simp [hq])
      have hfold : OnDatabaseChange e (p :: rest)
          = OnDatabaseChange (OnDatabaseChangeStep e p) rest := by
        rw [OnDatabaseChange, OnDatabaseChange, List.foldl_cons]
      rw [hfold, ih (OnDatabaseChangeStep e p) n hrest]
      have hfeq : (fun q : String × Bool =>
            q.1 == n && !(dbFiltered (OnDatabaseChangeStep e p) q.1))
          = (fun q : String × Bool => q.1 == n && !(dbFiltered e q.1)) :=
        funext fun q => by rw [dbFiltered_step]
      rw [hfeq, List.any_cons]
      by_cases hf : dbFiltered e p.1
      · have hstep : OnDatabaseChangeStep e p = e := by
          rw [OnDatabaseChangeStep]
          simp [hf]
        have hfp : (p.1 == n && !(dbFiltered e p.1)) = false := by
          rw [hf]
          simp
        rw [hstep, hfp, Bool.false_or]
      · have hfb : dbFiltered e p.1 = false := by
          simpa using hf
        have hstep : OnDatabaseChangeStep e p = CreateServer e p.1 := by
          rw [OnDatabaseChangeStep]
          simp [hfb, hp]
        have hcnt : countKey (CreateServer e p.1).servers n
            = if n = p.1 then 1 else countKey e.servers n := by
          rw [CreateServer]
          exact countKey_mapInsert e.servers p.1 _ n
        have hfp : (p.1 == n && !(dbFiltered e p.1)) = (p.1 == n) := by
          rw [hfb]
          simp
        rw [hstep, hfp]
        by_cases hany : rest.any (fun q => q.1 == n && !(dbFiltered e q.1))
        · rw [hany]
          simp
        · have hany' : rest.any (fun q => q.1 == n && !(dbFiltered e q.1))
              = false := Bool.eq_false_iff.mpr hany
          rw [hany']
          by_cases hdn : p.1 = n
          · have hb : (p.1 == n) = true := by simp [hdn]
            rw [hb]
            rw [hdn] at hcnt
            simp only [hdn, hcnt]
            simp
          · have hb : (p.1 == n) = false := by simp [hdn]
            rw [hb]
            simp [hcnt, Ne.symm hdn]

/-- Claim C7: applying the same added-name change map twice leaves the
peripheral-map entry count of every name unchanged (no duplicate entry);
every added name passing the filters ends with exactly one entry; and
removing a database name not present in the map leaves the map
unchanged. -/
theorem discoveryIdempotent (e : Exporter) (change : List (String × Bool))
    (hadd : ∀ p ∈ change, p.2 = true) :
    (∀ n, countKey
        (OnDatabaseChange (OnDatabaseChange e change) change).servers n
      = countKey (OnDatabaseChange e change).servers n)
    ∧ (∀ n, (n, true) ∈ change → dbFiltered e n = false →
        countKey (OnDatabaseChange e change).servers n = 1)
    ∧ (∀ n, ¬ n ∈ e.servers.map Prod.fst →
        (RemoveServer e n).servers = e.servers) := by
  refine ⟨?_, ?_, ?_⟩
  · intro n
    have h1 := countKey_onDatabaseChange change e n hadd
    have h2 := countKey_onDatabaseChange change (OnDatabaseChange e change)
      n hadd
    have hdbf : ∀ x, dbFiltered (OnDatabaseChange e change) x
        = dbFiltered e x := dbFiltered_fold e change
    simp only [hdbf] at h2
    rw [h1, h2]
    by_cases hany : change.any (fun p => p.1 == n && !(dbFiltered e p.1))
    · simp [hany]
    · simp [hany, h1]
  · intro n hmem hnf
    rw [countKey_onDatabaseChange change e n hadd]
    have hany : change.any (fun p => p.1 == n && !(dbFiltered e p.1))
        = true := by
      rw [List.any_eq_true]
      exact ⟨(n, true), hmem, by simp [hnf]⟩
    simp [hany]
  · intro n hnm
    rw [RemoveServer]
    simp [mapErase_of_not_mem e.servers n hnm]

/-- Witness for C7: applying `{dbA, dbB}` (both added) twice to an
unfiltered exporter yields entry count 1 for `dbA` both times, and
removing an absent name is a no-op. -/
theorem discoveryIdempotent_witness :
    countKey (OnDatabaseChange
        (OnDatabaseChange ew7 [("dbA", true), ("dbB", true)])
        [("dbA", true), ("dbB", true)]).servers "dbA"
      = countKey
          (OnDatabaseChange ew7 [("dbA", true), ("dbB", true)]).servers "dbA"
    ∧ countKey
        (OnDatabaseChange ew7 [("dbA", true), ("dbB", true)]).servers "dbA"
      = 1
    ∧ (RemoveServer ew7 "zzz").servers = ew7.servers :=
  ⟨(discoveryIdempotent ew7 [("dbA", true), ("dbB", true)]
      (by decide)).1 "dbA",
    (discoveryIdempotent ew7 [("dbA", true), ("dbB", true)]
      (by decide)).2.1 "dbA" (by decide) (by decide),
    (discoveryIdempotent ew7 [("dbA", true), ("dbB", true)]
      (by decide)).2.2 "zzz" (by decide)⟩

/-- Counterexample to claim C10 as stated: on a server whose cache is
globally disabled, a failed execution does set `lastScrape` to the
server's scrape-begin, yet the subsequent collect 5ns later — within the
TTL window of 10 — re-executes instead of serving the failed result as a
cache hit. -/
theorem failedCacheRetry_cex :
    dSrv.DisableCache = true
    ∧ (CollectWithContext dCollector dSrv (ExecOutcome.queryErr DBErr.other)
        100 101).1.err ≠ none
    ∧ (CollectWithContext dCollector dSrv (ExecOutcome.queryErr DBErr.other)
        100 101).1.lastScrape = dSrv.scrapeBegin
    ∧ ((105 : Int) - dSrv.scrapeBegin ≤ dCollector.query.ttl)
    ∧ (CollectWithContext
        (CollectWithContext dCollector dSrv
          (ExecOutcome.queryErr DBErr.other) 100 101).1
        { dSrv with scrapeBegin := 105 }
        (ExecOutcome.queryErr DBErr.other) 105 106).1.cacheHit = false := by
  decide

/-- Claim C10 (amended): after a failed execution, `CollectWithContext`
still sets the cache timestamp to the server's scrape-begin and caches
the failed result, so — provided the server's cache is not globally
disabled — every subsequent collect whose scrape-begin is within TTL of
the failed attempt serves that failed result as a cache hit and the
query is not retried until the TTL window expires. -/
theorem failedCacheRetained (c : Collector) (srv : Server)
    (oc oc2 : ExecOutcome) (now nd t2 now2 nd2 : Int)
    (hdc : srv.DisableCache = false)
    (hexp : cacheExpired c srv = true)
    (hfail : (execute { c with scrapeBegin := now } oc).err ≠ none)
    (hwin : t2 - srv.scrapeBegin ≤ c.query.ttl) :
    (CollectWithContext c srv oc now nd).1.lastScrape = srv.scrapeBegin
    ∧ (CollectWithContext c srv oc now nd).1.err ≠ none
    ∧ (CollectWithContext (CollectWithContext c srv oc now nd).1
        { srv with scrapeBegin := t2 } oc2 now2 nd2).1.cacheHit = true
    ∧ (CollectWithContext (CollectWithContext c srv oc now nd).1
        { srv with scrapeBegin := t2 } oc2 now2 nd2).2
      = (CollectWithContext c srv oc now nd).1.result := by
  have h1 := collect_executes c srv oc now nd (by rw [hexp]; rfl)
  have hq1last : (CollectWithContext c srv oc now nd).1.lastScrape
      = srv.scrapeBegin := by
    rw [h1.1]
  have hq1err : (CollectWithContext c srv oc now nd).1.err ≠ none := by
    rw [h1.1]
    exact hfail
  have hq1q : (CollectWithContext c srv oc now nd).1.query = c.query := by
    rw [h1.1]
    exact (execute_fields { c with scrapeBegin := now } oc).1
  have hce : cacheExpired (CollectWithContext c srv oc now nd).1
      { srv with scrapeBegin := t2 } = false := by
    rw [cacheExpired]
    simp only [hq1last, hq1q]
    exact decide_eq_false (not_lt.mpr hwin)
  have hcond : (cacheExpired (CollectWithContext c srv oc now nd).1
      { srv with scrapeBegin := t2 }
      || ({ srv with scrapeBegin := t2 }).DisableCache) = false := by
    have hdc2 : ({ srv with scrapeBegin := t2 }).DisableCache = false := hdc
    rw [hce, hdc2]
    rfl
  have h2 := collect_cached (CollectWithContext c srv oc now nd).1
    { srv with scrapeBegin := t2 } oc2 now2 nd2 hcond
  refine ⟨hq1last, hq1err, ?_, h2.2⟩
  rw [h2.1]

/-- Witness for C10 (amended): a failed execution at scrape-begin 11,
then a collect at scrape-begin 15 (within TTL 10) serving the failed
result as a cache hit. -/
theorem failedCacheRetained_witness :
    (CollectWithContext c2Collector c2Server
        (ExecOutcome.queryErr DBErr.other) 11 12).1.lastScrape
      = c2Server.scrapeBegin
    ∧ (CollectWithContext c2Collector c2Server
        (ExecOutcome.queryErr DBErr.other) 11 12).1.err ≠ none
    ∧ (CollectWithContext (CollectWithContext c2Collector c2Server
          (ExecOutcome.queryErr DBErr.other) 11 12).1
        { c2Server with scrapeBegin := 15 } wOutcome 15 16).1.cacheHit = true
    ∧ (CollectWithContext (CollectWithContext c2Collector c2Server
          (ExecOutcome.queryErr DBErr.other) 11 12).1
        { c2Server with scrapeBegin := 15 } wOutcome 15 16).2
      = (CollectWithContext c2Collector c2Server
          (ExecOutcome.queryErr DBErr.other) 11 12).1.result :=
  failedCacheRetained c2Collector c2Server
    (ExecOutcome.queryErr DBErr.other) wOutcome 11 12 15 15 16
    (by decide) (by decide) (by decide) (by decide)

/-! Key-set lemmas for gauge vectors. -/

theorem gvKeys_gvSet (v : GaugeVec) (l : List String) (x : Int)
    (k : List String) (h : k ∈ gvKeys (gvSet v l x)) :
    k = l ∨ k ∈ gvKeys v := by
  rw [gvKeys, gvSet, List.map_append] at h
  rcases List.mem_append.mp h with h | h
  · right
    rcases List.mem_map.mp h with ⟨kv, hkv, hk⟩
    exact List.mem_map.mpr ⟨kv, List.mem_of_mem_filter hkv, hk⟩
  · left
    simpa using h

theorem gvKeys_gvAdd (v : GaugeVec) (l : List String) (x : Int)
    (k : List String) (h : k ∈ gvKeys (gvAdd v l x)) :
    k = l ∨ k ∈ gvKeys v := by
  rw [gvAdd] at h
  cases hfind : v.find? (fun kv => kv.1 == l) with
  | some kv =>
      rw [hfind] at h
      exact gvKeys_gvSet v l (kv.2 + x) k h
  | none =>
      rw [hfind] at h
      exact gvKeys_gvSet v l x k h

theorem gvKeys_qvFold (db : String) (stats : List (String × Int)) :
    ∀ (v : GaugeVec) (k : List String), k ∈ gvKeys (qvFold db stats v) →
      k ∈ gvKeys v ∨ ∃ qn, qn ∈ stats.map Prod.fst ∧ k = [db, qn] := by
  induction stats with
  | nil =>
      intro v k h
      exact Or.inl h
  | cons s rest ih =>
      intro v k h
      rw [qvFold, List.foldl_cons] at h
      rcases ih (gvSet v [db, s.1] s.2) k h with h0 | ⟨qn, hqn, hk⟩
      · rcases gvKeys_gvSet v [db, s.1] s.2 k h0 with hk | hv
        · exact Or.inr ⟨s.1, by simp, hk⟩
        · exact Or.inl hv
      · exact Or.inr ⟨qn, by simp at hqn ⊢; exact Or.inr hqn, hk⟩

/-! Key sets after the server loop of `collectServerMetrics`. -/

theorem csm_fold_keys (ss : List PServer) :
    ∀ (e0 : Exporter) (k : List String),
      (k ∈ gvKeys ((ss.foldl csmStep e0).serverScrapeDuration) →
        k ∈ gvKeys e0.serverScrapeDuration ∨ serverKey ss k)
      ∧ (k ∈ gvKeys ((ss.foldl csmStep e0).serverScrapeTotalSeconds) →
        k ∈ gvKeys e0.serverScrapeTotalSeconds ∨ serverKey ss k)
      ∧ (k ∈ gvKeys ((ss.foldl csmStep e0).serverScrapeTotalCount) →
        k ∈ gvKeys e0.serverScrapeTotalCount ∨ serverKey ss k)
      ∧ (k ∈ gvKeys ((ss.foldl csmStep e0).serverScrapeErrorCount) →
        k ∈ gvKeys e0.serverScrapeErrorCount ∨ serverKey ss k)
      ∧ (k ∈ gvKeys ((ss.foldl csmStep e0).queryCacheTTL) →
        k ∈ gvKeys e0.queryCacheTTL
          ∨ queryKey ss PServer.queryCacheTTL k)
      ∧ (k ∈ gvKeys ((ss.foldl csmStep e0).queryScrapeTotalCount) →
        k ∈ gvKeys e0.queryScrapeTotalCount
          ∨ queryKey ss PServer.queryScrapeTotalCount k)
      ∧ (k ∈ gvKeys ((ss.foldl csmStep e0).queryScrapeErrorCount) →
        k ∈ gvKeys e0.queryScrapeErrorCount
          ∨ queryKey ss PServer.queryScrapeErrorCount k)
      ∧ (k ∈ gvKeys ((ss.foldl csmStep e0).queryScrapeDuration) →
        k ∈ gvKeys e0.queryScrapeDuration
          ∨ queryKey ss PServer.queryScrapeDuration k)
      ∧ (k ∈ gvKeys ((ss.foldl csmStep e0).queryScrapeMetricCount) →
        k ∈ gvKeys e0.queryScrapeMetricCount
          ∨ queryKey ss PServer.queryScrapeMetricCount k)
      ∧ (k ∈ gvKeys ((ss.foldl csmStep e0).queryScrapeHitCount) →
        k ∈ gvKeys e0.queryScrapeHitCount
          ∨ queryKey ss PServer.queryScrapeHitCount k) := by
  induction ss with
  | nil =>
      intro e0 k
      exact ⟨fun h => Or.inl h, fun h => Or.inl h, fun h => Or.inl h,
        fun h => Or.inl h, fun h => Or.inl h, fun h => Or.inl h,
        fun h => Or.inl h, fun h => Or.inl h, fun h => Or.inl h,
        fun h => Or.inl h⟩
  | cons s rest ih =>
      intro e0 k
      simp only [List.foldl_cons]
      have ihs := ih (csmStep e0 s) k
      refine ⟨?_, ?_, ?_, ?_, ?_, ?_, ?_, ?_, ?_, ?_⟩
      · intro h
        rcases ihs.1 h with h0 | ⟨s', hs', hk⟩
        · rcases gvKeys_gvSet e0.serverScrapeDuration [s.Database]
              s.duration k h0 with hk | hv
          · exact Or.inr ⟨s, by simp, hk⟩
          · exact Or.inl hv
        · exact Or.inr ⟨s', by simp [hs'], hk⟩
      · intro h
        rcases ihs.2.1 h with h0 | ⟨s', hs', hk⟩
        · rcases gvKeys_gvSet e0.serverScrapeTotalSeconds [s.Database]
              s.totalTime k h0 with hk | hv
          · exact Or.inr ⟨s, by simp, hk⟩
          · exact Or.inl hv
        · exact Or.inr ⟨s', by simp [hs'], hk⟩
      · intro h
        rcases ihs.2.2.1 h with h0 | ⟨s', hs', hk⟩
        · rcases gvKeys_gvSet e0.serverScrapeTotalCount [s.Database]
              s.totalCount k h0 with hk | hv
          · exact Or.inr ⟨s, by simp, hk⟩
          · exact Or.inl hv
        · exact Or.inr ⟨s', by simp [hs'], hk⟩
      · intro h
        rcases ihs.2.2.2.1 h with h0 | ⟨s', hs', hk⟩
        · have hred : (csmStep e0 s).serverScrapeErrorCount
              = (if s.hasError then
                  gvAdd e0.serverScrapeErrorCount [s.Database] 1
                 else e0.serverScrapeErrorCount) := rfl
          rw [hred] at h0
          by_cases hE : s.hasError
          · rw [if_pos hE] at h0
            rcases gvKeys_gvAdd e0.serverScrapeErrorCount [s.Database] 1
                k h0 with hk | hv
            · exact Or.inr ⟨s, by simp, hk⟩
            · exact Or.inl hv
          · rw [if_neg hE] at h0
            exact Or.inl h0
        · exact Or.inr ⟨s', by simp [hs'], hk⟩
      · intro h
        rcases ihs.2.2.2.2.1 h with h0 | ⟨s', hs', hq⟩
        · rcases gvKeys_qvFold s.Database s.queryCacheTTL
              e0.queryCacheTTL k h0 with hv | ⟨qn, hqn, hk⟩
          · exact Or.inl hv
          · exact Or.inr ⟨s, by simp, qn, hqn, hk⟩
        · exact Or.inr ⟨s', by simp [hs'], hq⟩
      · intro h
        rcases ihs.2.2.2.2.2.1 h with h0 | ⟨s', hs', hq⟩
        · rcases gvKeys_qvFold s.Database s.queryScrapeTotalCount
              e0.queryScrapeTotalCount k h0 with hv | ⟨qn, hqn, hk⟩
          · exact Or.inl hv
          · exact Or.inr ⟨s, by simp, qn, hqn, hk⟩
        · exact Or.inr ⟨s', by simp [hs'], hq⟩
      · intro h
        rcases ihs.2.2.2.2.2.2.1 h with h0 | ⟨s', hs', hq⟩
        · rcases gvKeys_qvFold s.Database s.queryScrapeErrorCount
              e0.queryScrapeErrorCount k h0 with hv | ⟨qn, hqn, hk⟩
          · exact Or.inl hv
          · exact Or.inr ⟨s, by simp, qn, hqn, hk⟩
        · exact Or.inr ⟨s', by simp [hs'], hq⟩
      · intro h
        rcases ihs.2.2.2.2.2.2.2.1 h with h0 | ⟨s', hs', hq⟩
        · rcases gvKeys_qvFold s.Database s.queryScrapeDuration
              e0.queryScrapeDuration k h0 with hv | ⟨qn, hqn, hk⟩
          · exact Or.inl hv
          · exact Or.inr ⟨s, by simp, qn, hqn, hk⟩
        · exact Or.inr ⟨s', by simp [hs'], hq⟩
      · intro h
        rcases ihs.2.2.2.2.2.2.2.2.1 h with h0 | ⟨s', hs', hq⟩
        · rcases gvKeys_qvFold s.Database s.queryScrapeMetricCount
              e0.queryScrapeMetricCount k h0 with hv | ⟨qn, hqn, hk⟩
          · exact Or.inl hv
          · exact Or.inr ⟨s, by simp, qn, hqn, hk⟩
        · exact Or.inr ⟨s', by simp [hs'], hq⟩
      · intro h
        rcases ihs.2.2.2.2.2.2.2.2.2 h with h0 | ⟨s', hs', hq⟩
        · rcases gvKeys_qvFold s.Database s.queryScrapeHitCount
              e0.queryScrapeHitCount k h0 with hv | ⟨qn, hqn, hk⟩
          · exact Or.inl hv
          · exact Or.inr ⟨s, by simp, qn, hqn, hk⟩
        · exact Or.inr ⟨s', by simp [hs'], hq⟩

/-- Claim C8: on every scrape, `collectServerMetrics` fully resets each
per-server and per-query gauge vector before repopulating it from the
currently known servers and their statistics maps, so every label
combination present afterwards belongs to a current server (and, for the
query-level vectors, to a query in that server's statistics map) — a
removed backend or query never survives in the gauge vectors. -/
theorem gaugeResetRepopulate (e : Exporter) (k : List String) :
    (k ∈ gvKeys (collectServerMetrics e).serverScrapeDuration →
      serverKey (scrapedServers e) k)
    ∧ (k ∈ gvKeys (collectServerMetrics e).serverScrapeTotalSeconds →
      serverKey (scrapedServers e) k)
    ∧ (k ∈ gvKeys (collectServerMetrics e).serverScrapeTotalCount →
      serverKey (scrapedServers e) k)
    ∧ (k ∈ gvKeys (collectServerMetrics e).serverScrapeErrorCount →
      serverKey (scrapedServers e) k)
    ∧ (k ∈ gvKeys (collectServerMetrics e).queryCacheTTL →
      queryKey (scrapedServers e) PServer.queryCacheTTL k)
    ∧ (k ∈ gvKeys (collectServerMetrics e).queryScrapeTotalCount →
      queryKey (scrapedServers e) PServer.queryScrapeTotalCount k)
    ∧ (k ∈ gvKeys (collectServerMetrics e).queryScrapeErrorCount →
      queryKey (scrapedServers e) PServer.queryScrapeErrorCount k)
    ∧ (k ∈ gvKeys (collectServerMetrics e).queryScrapeDuration →
      queryKey (scrapedServers e) PServer.queryScrapeDuration k)
    ∧ (k ∈ gvKeys (collectServerMetrics e).queryScrapeMetricCount →
      queryKey (scrapedServers e) PServer.queryScrapeMetricCount k)
    ∧ (k ∈ gvKeys (collectServerMetrics e).queryScrapeHitCount →
      queryKey (scrapedServers e) PServer.queryScrapeHitCount k) := by
  have h := csm_fold_keys (scrapedServers e) (resetGauges e) k
  refine ⟨fun hh => (h.1 hh).resolve_left (List.not_mem_nil k),
    fun hh => (h.2.1 hh).resolve_left (List.not_mem_nil k),
    fun hh => (h.2.2.1 hh).resolve_left (List.not_mem_nil k),
    fun hh => (h.2.2.2.1 hh).resolve_left (List.not_mem_nil k),
    fun hh => (h.2.2.2.2.1 hh).resolve_left (List.not_mem_nil k),
    fun hh => (h.2.2.2.2.2.1 hh).resolve_left (List.not_mem_nil k),
    fun hh => (h.2.2.2.2.2.2.1 hh).resolve_left (List.not_mem_nil k),
    fun hh => (h.2.2.2.2.2.2.2.1 hh).resolve_left (List.not_mem_nil k),
    fun hh => (h.2.2.2.2.2.2.2.2.1 hh).resolve_left (List.not_mem_nil k),
    fun hh => (h.2.2.2.2.2.2.2.2.2 hh).resolve_left (List.not_mem_nil k)⟩

/-- Witness for C8 on `ew8`, whose vectors held stale entries of a
removed backend `old`: after the scrape the present keys belong to the
live servers `a` and `pg`. -/
theorem gaugeResetRepopulate_witness :
    queryKey (scrapedServers ew8) PServer.queryCacheTTL ["a", "q1"]
    ∧ serverKey (scrapedServers ew8) ["pg"] :=
  ⟨(gaugeResetRepopulate ew8 ["a", "q1"]).2.2.2.2.1 (by decide),
    (gaugeResetRepopulate ew8 ["pg"]).1 (by decide)⟩

end PgExporter
